import Mathlib

/-!
Verification of the per-session orchestration subsystem of the
hadithiAI orchestrator: schema-validated A2A dispatch, circuit breaker,
streaming controller, gateway sequencing, interrupt handling and the
cultural validation filter.  Each Python function under scrutiny is
shallowly embedded as an executable Lean definition; stateful code is
modelled by explicit state passing, wall-clock time by an explicit
rational-valued `now` argument, and fallible code by `Except`/`Option`.
-/

set_option maxHeartbeats 1000000

/-! ## Python string primitives

Text is modelled as `List Char`.  The helpers below embed the Python
string operations used by the sources: `str.lower`, `str.rstrip`,
`str.strip`, `str.endswith`, and the substring test `a in b`.
Whitespace is modelled by Python's ASCII whitespace class (the inputs
the claims are about are ASCII).
-/

/-- Python's ASCII whitespace characters (as stripped by `str.strip`). -/
def pyIsSpace (c : Char) : Bool :=
  c = ' ' || c = '\t' || c = '\n' || c = '\r' || c = '\x0b' || c = '\x0c'

/-- Embeds Python `str.lower` (ASCII case mapping). -/
def pyLower (s : List Char) : List Char :=
  s.map Char.toLower

/-- Embeds Python `str.rstrip()`: drop trailing whitespace. -/
def pyRstrip (s : List Char) : List Char :=
  (s.reverse.dropWhile pyIsSpace).reverse

/-- Embeds Python `str.strip()`: drop leading and trailing whitespace. -/
def pyStrip (s : List Char) : List Char :=
  (pyRstrip s).dropWhile pyIsSpace

/-- Boolean prefix test on character lists. -/
def prefixB : List Char → List Char → Bool
  | [], _ => true
  | _ :: _, [] => false
  | a :: as, b :: bs => a == b && prefixB as bs

/-- Embeds Python `str.endswith`: Boolean suffix test. -/
def suffixB (pat s : List Char) : Bool :=
  prefixB pat.reverse s.reverse

/-- Embeds the Python substring test `pat in s`. -/
def infixB (pat : List Char) : List Char → Bool
  | [] => prefixB pat []
  | h :: t => prefixB pat (h :: t) || infixB pat t

/-! ## Server messages (core/models.py)

Only the fields the verified code reads are carried. -/

/-- Tags of `ServerMessage` (core/models.py `ServerMessageType`). -/
inductive ServerMessageType where
  | audio_chunk
  | text_chunk
  | image_ready
  | agent_state
  | turn_end
  | interrupted
  | error
  | session_created
  | pong
deriving DecidableEq, Repr

/-- A server-to-client message; `seq` is assigned by the gateway sender. -/
structure ServerMessage where
  type : ServerMessageType
  data : List Char := []
  agent : String := ""
  seq : Nat := 0
deriving DecidableEq, Repr

/-! ## Streaming controller (orchestrator/streaming_controller.py)

`StreamingController` holds a text buffer and pushes `ServerMessage`s
onto the per-connection output queue.  For the buffering claims the
queue is modelled in the no-backpressure regime (plain append); the
backpressure path of `_enqueue` is embedded separately below as
`enqueueBP`.
-/

/-- The sentence-ender tuple of `send_text_chunk`
(`(".", "!", "?", "...", "\n")` in the source). -/
def sentence_enders : List (List Char) :=
  [".".data, "!".data, "?".data, "...".data, "\n".data]

/-- The flush trigger checked by `send_text_chunk` after appending the
incoming fragment: some sentence ender is a suffix of the right-stripped
buffer, or the buffer exceeds 200 characters. -/
def shouldFlush (buf : List Char) : Bool :=
  sentence_enders.any (fun e => suffixB e (pyRstrip buf)) || decide (200 < buf.length)

/-- Mutable state of a `StreamingController` together with its output
queue. -/
structure StreamState where
  outputQueue : List ServerMessage := []
  textBuffer : List Char := []
  chunksSent : Nat := 0
deriving Repr

/-- Embeds `StreamingController._flush_text_buffer`: a whitespace-only
buffer is kept and nothing is emitted (the early return), otherwise the
whole buffer is enqueued as one `text_chunk` and cleared. -/
def flush_text_buffer (agent : String) (s : StreamState) : StreamState :=
  if (pyStrip s.textBuffer).isEmpty then s
  else
    { s with
      outputQueue := s.outputQueue ++
        [{ type := ServerMessageType.text_chunk, data := s.textBuffer, agent := agent }]
      textBuffer := []
      chunksSent := s.chunksSent + 1 }

/-- Embeds `StreamingController.send_text_chunk`: append the fragment,
then flush when a sentence ender is reached or the buffer exceeds 200
characters. -/
def send_text_chunk (agent : String) (text : List Char) (s : StreamState) : StreamState :=
  let s' := { s with textBuffer := s.textBuffer ++ text }
  if shouldFlush s'.textBuffer then flush_text_buffer agent s' else s'

/-- Embeds `StreamingController.send_turn_end`: flush any remaining
non-empty buffer, then enqueue a `turn_end` message and reset the chunk
counter. -/
def send_turn_end (s : StreamState) : StreamState :=
  let s' := if s.textBuffer.isEmpty then s else flush_text_buffer "orchestrator" s
  { s' with
    outputQueue := s'.outputQueue ++ [{ type := ServerMessageType.turn_end }]
    chunksSent := 0 }

/-- Embeds `StreamingController._enqueue` under backpressure.  The
behaviour of the concurrent send loop during the bounded 5 s wait is
the `freedDuringWait` parameter: how many messages the sender dequeues
from the front of the queue before the timeout.  A non-blocking put is
tried first; if the queue is full and no room opens during the wait the
message is dropped (the `asyncio.TimeoutError` branch), whatever its
type. -/
def enqueueBP (cap : Nat) (q : List ServerMessage) (msg : ServerMessage)
    (freedDuringWait : Nat) : List ServerMessage :=
  if q.length < cap then q ++ [msg]
  else
    let q' := q.drop freedDuringWait
    if q'.length < cap then q' ++ [msg] else q'

/-! ## Helper lemmas on the string primitives -/

theorem prefixB_of_append (a b s : List Char) (h : prefixB (a ++ b) s = true) :
    prefixB b (s.drop a.length) = true := by
  induction a generalizing s with
  | nil => simpa using h
  | cons x xs ih =>
    cases s with
    | nil => simp [prefixB] at h
    | cons y ys =>
      simp only [List.cons_append, prefixB, Bool.and_eq_true] at h
      simpa using ih ys h.2

theorem dropWhile_head_not {p : Char → Bool} {l : List Char} {a : Char} {t : List Char}
    (h : l.dropWhile p = a :: t) : p a = false := by
  induction l with
  | nil => simp [List.dropWhile] at h
  | cons x xs ih =>
    rw [List.dropWhile_cons] at h
    by_cases hx : p x = true
    · rw [if_pos hx] at h; exact ih h
    · rw [if_neg hx] at h
      cases h
      simpa using hx

/-- The right-stripped buffer never ends in a whitespace character. -/
theorem suffixB_ws_pyRstrip_false (c : Char) (hc : pyIsSpace c = true) (buf : List Char) :
    suffixB [c] (pyRstrip buf) = false := by
  unfold suffixB pyRstrip
  rw [List.reverse_reverse]
  cases hdrop : buf.reverse.dropWhile pyIsSpace with
  | nil => rfl
  | cons a t =>
    have ha : pyIsSpace a = false := dropWhile_head_not hdrop
    have hne : (c == a) = false := by
      cases hcb : c == a
      · rfl
      · have hca : c = a := by simpa using hcb
        subst hca
        rw [hc] at ha
        exact absurd ha (by simp)
    simp [prefixB, hne]

/-- Ending in `"..."` implies ending in `"."`. -/
theorem suffixB_dots_imp_dot (s : List Char)
    (h : suffixB "...".data s = true) : suffixB ".".data s = true := by
  unfold suffixB at h ⊢
  have : ("...".data.reverse : List Char) = '.' :: '.' :: '.' :: [] := rfl
  rw [this] at h
  have h2 := prefixB_of_append ['.'] ['.', '.'] s.reverse h
  have h3 := prefixB_of_append ['.'] ['.'] (s.reverse.drop 1) h2
  cases hs : s.reverse with
  | nil => rw [hs] at h; simp [prefixB] at h
  | cons a t =>
    rw [hs] at h
    simp only [prefixB, Bool.and_eq_true] at h
    simp [prefixB, h.1]

/-! ## Claim C5: the flush condition of `send_text_chunk` -/

/-- Modelled from the claim wording for comparison: the buffer's
right-trimmed tail ends with one of
`{".", "!", "?", "…", newline}` or the buffer exceeds 200 characters. -/
def claimedFlushEnders : List (List Char) :=
  [".".data, "!".data, "?".data, "…".data, "\n".data]

/-- The flush trigger as the claim states it. -/
def claimedFlushCondition (buf : List Char) : Bool :=
  claimedFlushEnders.any (fun e => suffixB e (pyRstrip buf)) || decide (200 < buf.length)

/-- C5 counterexample: a buffer ending in the horizontal-ellipsis
character U+2026 satisfies the claimed flush condition but the source
does not flush it — the code's ender tuple holds the three-dot ASCII
string `"..."`, not `"…"`. -/
theorem c5_counterexample :
    shouldFlush "Hello…".data = false ∧ claimedFlushCondition "Hello…".data = true := by
  decide

/-- C5 (amended): the buffer flushes exactly when its right-trimmed tail
ends with `"."`, `"!"` or `"?"`, or the buffer exceeds 200 characters.
The `"..."` ender of the source tuple is subsumed by `"."`, and the
`"\n"` ender can never fire because `rstrip` removes trailing
whitespace before the suffix test; `"…"` is not an ender in the code. -/
theorem c5_flush_condition (buf : List Char) :
    shouldFlush buf =
      ((suffixB ".".data (pyRstrip buf) || suffixB "!".data (pyRstrip buf) ||
        suffixB "?".data (pyRstrip buf)) || decide (200 < buf.length)) := by
  have hnl : suffixB "\n".data (pyRstrip buf) = false :=
    suffixB_ws_pyRstrip_false '\n' (by decide) buf
  unfold shouldFlush sentence_enders
  simp only [List.any_cons, List.any_nil, Bool.or_false, hnl]
  cases hdot : suffixB ".".data (pyRstrip buf)
  · cases hdots : suffixB "...".data (pyRstrip buf)
    · simp [hdot, hdots]
    · exact absurd (suffixB_dots_imp_dot _ hdots) (by simp [hdot])
  · simp [hdot]

/-! ## Claim C6: text is conserved from `send_text_chunk` to `turn_end` -/

/-- Concatenation of the `data` fields of all `text_chunk` messages in
an output queue. -/
def textConcat (q : List ServerMessage) : List Char :=
  q.foldr (fun m acc =>
    if m.type = ServerMessageType.text_chunk then m.data ++ acc else acc) []

/-- A full controller run: a sequence of `send_text_chunk` calls
concluded by `send_turn_end`, from a fresh controller. -/
def runTextStream (inputs : List (List Char)) : StreamState :=
  send_turn_end (inputs.foldl (fun s t => send_text_chunk "orchestrator" t s) {})

theorem textConcat_append (a b : List ServerMessage) :
    textConcat (a ++ b) = textConcat a ++ textConcat b := by
  induction a with
  | nil => rfl
  | cons m t ih =>
    simp only [List.cons_append, textConcat, List.foldr_cons] at *
    rw [ih]
    by_cases hm : m.type = ServerMessageType.text_chunk
    · simp [hm, List.append_assoc]
    · simp [hm]

theorem flush_conserves (ag : String) (s : StreamState) :
    textConcat (flush_text_buffer ag s).outputQueue ++ (flush_text_buffer ag s).textBuffer
      = textConcat s.outputQueue ++ s.textBuffer := by
  unfold flush_text_buffer
  by_cases h : (pyStrip s.textBuffer).isEmpty
  · simp [h]
  · rw [if_neg h]
    simp only [List.append_nil]
    rw [textConcat_append]
    simp [textConcat]

theorem send_text_chunk_conserves (ag : String) (t : List Char) (s : StreamState) :
    textConcat (send_text_chunk ag t s).outputQueue ++ (send_text_chunk ag t s).textBuffer
      = textConcat s.outputQueue ++ s.textBuffer ++ t := by
  unfold send_text_chunk
  by_cases h : shouldFlush (s.textBuffer ++ t)
  · simp only [h, if_pos]
    rw [flush_conserves]
    simp [List.append_assoc]
  · simp [h, List.append_assoc]

theorem send_turn_end_conserves (s : StreamState) :
    textConcat (send_turn_end s).outputQueue ++ (send_turn_end s).textBuffer
      = textConcat s.outputQueue ++ s.textBuffer := by
  unfold send_turn_end
  by_cases h : s.textBuffer.isEmpty
  · simp [h, textConcat_append, textConcat]
  · simp only [h, Bool.false_eq_true, if_neg, if_false]
    have := flush_conserves "orchestrator" s
    simp only [textConcat_append, textConcat, List.foldr_cons, List.foldr_nil] at *
    simpa using this

theorem run_conserves (inputs : List (List Char)) (s : StreamState) :
    textConcat (inputs.foldl (fun s t => send_text_chunk "orchestrator" t s) s).outputQueue
        ++ (inputs.foldl (fun s t => send_text_chunk "orchestrator" t s) s).textBuffer
      = textConcat s.outputQueue ++ s.textBuffer ++ inputs.flatten := by
  induction inputs generalizing s with
  | nil => simp
  | cons t ts ih =>
    simp only [List.foldl_cons, List.flatten_cons]
    rw [ih, send_text_chunk_conserves]
    simp [List.append_assoc]

theorem send_turn_end_buffer_ws (s : StreamState) :
    pyStrip (send_turn_end s).textBuffer = [] := by
  simp only [send_turn_end]
  by_cases h : s.textBuffer.isEmpty
  · rw [if_pos h]
    have hb : s.textBuffer = [] := by simpa using h
    simp [hb, pyStrip, pyRstrip]
  · rw [if_neg h]
    simp only [flush_text_buffer]
    by_cases h2 : (pyStrip s.textBuffer).isEmpty
    · rw [if_pos h2]
      simpa using h2
    · rw [if_neg h2]
      rfl

/-- C6 counterexample: a run whose only input is a single space emits no
`text_chunk` at all — `send_turn_end` routes through
`_flush_text_buffer`, whose early return discards a whitespace-only
buffer — so the concatenation of emitted data is empty while the
concatenation of the inputs is the space. -/
theorem c6_counterexample :
    textConcat (runTextStream [" ".data]).outputQueue = [] ∧
    ([" ".data].flatten : List Char) = " ".data ∧ (" ".data : List Char) ≠ [] := by
  decide

/-- C6 (amended): for every `send_text_chunk` sequence concluded by
`send_turn_end`, the concatenation of the emitted `text_chunk` data
together with the residual buffer equals the concatenation of all
inputs, and the residual buffer is whitespace-only; so text is never
lost, duplicated or reordered except that a whitespace-only remainder
held in the buffer at `turn_end` is dropped. -/
theorem c6_text_concat (inputs : List (List Char)) :
    textConcat (runTextStream inputs).outputQueue ++ (runTextStream inputs).textBuffer
        = inputs.flatten ∧
    pyStrip (runTextStream inputs).textBuffer = [] := by
  constructor
  · unfold runTextStream
    rw [send_turn_end_conserves, run_conserves]
    rfl
  · exact send_turn_end_buffer_ws _

/-! ## Claim C3: backpressure never drops turn_end / error -/

/-- A message already sitting in a full queue for the C3 scenario. -/
def c3StuckMsg : ServerMessage := { type := ServerMessageType.audio_chunk }

/-- A `turn_end` message submitted to a stuck full queue. -/
def c3TurnEndMsg : ServerMessage := { type := ServerMessageType.turn_end }

/-- C3 counterexample: with a full queue (capacity 1) and a completely
stuck consumer, enqueueing a `turn_end` message times out and the
message is dropped — `_enqueue` has no retry loop and no special case
for non-droppable types, contrary to the claim. -/
theorem c3_counterexample :
    c3TurnEndMsg.type = ServerMessageType.turn_end ∧
    enqueueBP 1 [c3StuckMsg] c3TurnEndMsg 0 = [c3StuckMsg] ∧
    c3TurnEndMsg ∉ enqueueBP 1 [c3StuckMsg] c3TurnEndMsg 0 := by
  decide

/-- C3 (amended): `_enqueue` first tries a non-blocking put, then waits
up to 5 seconds; on timeout the message is dropped whatever its type —
`turn_end` and `error` are not retried.  A message reaches the output
queue exactly when there is room immediately or the consumer frees room
within the wait. -/
theorem c3_enqueue_drops_on_timeout (cap : Nat) (q : List ServerMessage)
    (msg : ServerMessage) (freed : Nat) (hnotin : msg ∉ q) :
    msg ∈ enqueueBP cap q msg freed ↔
      q.length < cap ∨ (q.drop freed).length < cap := by
  unfold enqueueBP
  by_cases h1 : q.length < cap
  · simp [h1]
  · rw [if_neg h1]
    by_cases h2 : (q.drop freed).length < cap
    · rw [if_pos h2]
      rw [List.length_drop] at h2
      simp [h1, h2]
    · rw [if_neg h2]
      simp only [h1, h2, or_self, iff_false]
      intro hmem
      exact hnotin ((List.drop_sublist freed q).subset hmem)

/-- C3 witness: the theorem applied at a concrete full queue where the
consumer frees one slot within the wait, so the message is delivered. -/
theorem c3_witness :
    c3TurnEndMsg ∈ enqueueBP 1 [c3StuckMsg] c3TurnEndMsg 1 :=
  (c3_enqueue_drops_on_timeout 1 [c3StuckMsg] c3TurnEndMsg 1 (by decide)).mpr
    (Or.inr (by decide))

/-! ## Claim C4: interrupt handling (orchestrator/primary_orchestrator.py)

`handle_interrupt` cancels the active sub-agent tasks, asks the live
session to stop, drains the output queue, moves the state machine to
`listening` and advances the turn id.  It never touches the streaming
controller, so the controller's sentence buffer keeps any text
accumulated before the interrupt. -/

/-- States of the per-session orchestrator state machine. -/
inductive OrchestratorState where
  | idle
  | listening
  | processing
  | streaming
  | interrupted
  | error
deriving DecidableEq, Repr

/-- The orchestrator state relevant to interrupt handling: the state
machine, the current turn counter (turn ids are modelled as a counter),
the set of active sub-agent tasks (modelled by its size), and the
streaming controller sharing the output queue. -/
structure OrchSessionState where
  orchState : OrchestratorState
  turnCounter : Nat
  activeTasks : Nat
  stream : StreamState
deriving Repr

/-- Embeds `PrimaryOrchestrator.handle_interrupt`: cancel active tasks,
drain the output queue, return to `listening` with a fresh turn id.
The streaming controller's `_text_buffer` is not cleared. -/
def handle_interrupt (s : OrchSessionState) : OrchSessionState :=
  { s with
    orchState := OrchestratorState.listening
    activeTasks := 0
    turnCounter := s.turnCounter + 1
    stream := { s.stream with outputQueue := [] } }

/-- A mid-stream session holding an unsent message in the queue and an
unterminated sentence in the controller's buffer. -/
def c4PreState : OrchSessionState :=
  { orchState := OrchestratorState.streaming
    turnCounter := 3
    activeTasks := 1
    stream :=
      { outputQueue := [{ type := ServerMessageType.audio_chunk }]
        textBuffer := "Once upon a time".data
        chunksSent := 2 } }

/-- C4 counterexample: after `handle_interrupt` the output queue is
indeed empty, but the text held in the controller's sentence buffer
before the interrupt survives and is emitted by the very next flush, so
a chunk produced before the interrupt appears in a subsequent send. -/
theorem c4_counterexample :
    (handle_interrupt c4PreState).stream.outputQueue = [] ∧
    (send_text_chunk "orchestrator" ".".data (handle_interrupt c4PreState).stream).outputQueue
      = [{ type := ServerMessageType.text_chunk
           data := "Once upon a time.".data
           agent := "orchestrator" }] ∧
    infixB "Once upon a time".data "Once upon a time.".data = true := by
  decide

/-- C4 (amended): `handle_interrupt` empties the output queue and leaves
the controller's text buffer untouched; whenever the next
`send_text_chunk` after the interrupt flushes, the emitted chunk's data
is the pre-interrupt buffer followed by the new fragment. -/
theorem c4_interrupt_drains_queue_keeps_buffer (s : OrchSessionState)
    (ag : String) (t : List Char)
    (hflush : (send_text_chunk ag t (handle_interrupt s).stream).outputQueue ≠ []) :
    (handle_interrupt s).stream.outputQueue = [] ∧
    (handle_interrupt s).stream.textBuffer = s.stream.textBuffer ∧
    (send_text_chunk ag t (handle_interrupt s).stream).outputQueue
      = [{ type := ServerMessageType.text_chunk
           data := s.stream.textBuffer ++ t
           agent := ag }] := by
  refine ⟨rfl, rfl, ?_⟩
  revert hflush
  simp only [handle_interrupt, send_text_chunk, flush_text_buffer]
  by_cases h1 : shouldFlush (s.stream.textBuffer ++ t)
  · rw [if_pos h1]
    by_cases h2 : (pyStrip (s.stream.textBuffer ++ t)).isEmpty
    · rw [if_pos h2]
      intro hflush
      exact absurd rfl hflush
    · rw [if_neg h2]
      intro _
      rfl
  · rw [if_neg h1]
    intro hflush
    exact absurd rfl hflush

/-- C4 witness: the amended theorem applied at the concrete mid-stream
session, for the fragment that completes the sentence. -/
theorem c4_witness :
    (send_text_chunk "orchestrator" ".".data (handle_interrupt c4PreState).stream).outputQueue
      = [{ type := ServerMessageType.text_chunk
           data := c4PreState.stream.textBuffer ++ ".".data
           agent := "orchestrator" }] :=
  (c4_interrupt_drains_queue_keeps_buffer c4PreState "orchestrator" ".".data
    (by decide)).2.2

/-! ## Claim C2: server sequence numbers (gateway/websocket_handler.py)

`ConnectionState` keeps `_seq_counter` starting at 0; `next_seq`
increments then returns, and `_send_message` assigns `msg.seq =
next_seq()` right before writing to the transport, only while the
socket is still connected.  A connection's sends are modelled as a list
of `_send_message` calls, each tagged with whether the socket is
connected at that moment (a disconnected call neither sends nor touches
the counter). -/

/-- Embeds `ConnectionState.next_seq`: increment, then return the new
counter. -/
def next_seq (counter : Nat) : Nat × Nat :=
  (counter + 1, counter + 1)

/-- The wire output of a sequence of `_send_message` calls starting
from counter value `c`: connected calls get the freshly incremented
sequence number stamped at send time. -/
def runSendsList (c : Nat) : List (ServerMessage × Bool) → List ServerMessage
  | [] => []
  | (m, connected) :: rest =>
    if connected then
      { m with seq := (next_seq c).2 } :: runSendsList (next_seq c).1 rest
    else runSendsList c rest

theorem runSendsList_all_gt (calls : List (ServerMessage × Bool)) (c : Nat) :
    ∀ m ∈ runSendsList c calls, c < m.seq := by
  induction calls generalizing c with
  | nil => intro m hm; simp [runSendsList] at hm
  | cons p rest ih =>
    intro m hm
    obtain ⟨mp, connected⟩ := p
    cases connected with
    | true =>
      rw [runSendsList, if_pos rfl, List.mem_cons] at hm
      rcases hm with h | h
      · subst h; simp [next_seq]
      · exact Nat.lt_of_succ_lt (ih (c + 1) m h)
    | false =>
      rw [runSendsList, if_neg (by simp)] at hm
      exact ih c m hm

theorem runSendsList_pairwise (calls : List (ServerMessage × Bool)) (c : Nat) :
    List.Pairwise (fun a b => a.seq < b.seq) (runSendsList c calls) := by
  induction calls generalizing c with
  | nil => exact List.Pairwise.nil
  | cons p rest ih =>
    obtain ⟨mp, connected⟩ := p
    cases connected with
    | true =>
      rw [runSendsList, if_pos rfl]
      refine List.pairwise_cons.mpr ⟨?_, ih (c + 1)⟩
      intro b hb
      have := runSendsList_all_gt rest (next_seq c).1 b hb
      simpa [next_seq] using this
    | false =>
      rw [runSendsList, if_neg (by simp)]
      exact ih c

theorem runSendsList_head_seq (calls : List (ServerMessage × Bool)) (c : Nat) :
    ∀ m, (runSendsList c calls).head? = some m → m.seq = c + 1 := by
  induction calls generalizing c with
  | nil => intro m hm; simp [runSendsList] at hm
  | cons p rest ih =>
    intro m hm
    obtain ⟨mp, connected⟩ := p
    cases connected with
    | true =>
      rw [runSendsList, if_pos rfl, List.head?_cons] at hm
      cases hm
      rfl
    | false =>
      rw [runSendsList, if_neg (by simp)] at hm
      exact ih c m hm

/-- C2: on every connection the server-assigned sequence numbers of the
messages actually written to the wire are strictly increasing, and the
first message sent carries sequence 1 — the sequence is stamped by the
gateway sender at send time, starting from a fresh counter of 0. -/
theorem c2_server_seq_monotone (calls : List (ServerMessage × Bool)) :
    List.Pairwise (fun a b => a.seq < b.seq) (runSendsList 0 calls) ∧
    (∀ m, (runSendsList 0 calls).head? = some m → m.seq = 1) :=
  ⟨runSendsList_pairwise calls 0, runSendsList_head_seq calls 0⟩

/-- C2 witness: a concrete connection sending two messages. -/
theorem c2_witness :
    List.Pairwise (fun a b => a.seq < b.seq)
      (runSendsList 0
        [({ type := ServerMessageType.session_created }, true),
         ({ type := ServerMessageType.turn_end }, true)]) ∧
    ({ type := ServerMessageType.session_created, seq := 1 } : ServerMessage).seq = 1 :=
  ⟨(c2_server_seq_monotone _).1,
   (c2_server_seq_monotone
      [({ type := ServerMessageType.session_created }, true),
       ({ type := ServerMessageType.turn_end }, true)]).2 _ rfl⟩

/-! ## Claim C7: circuit breaker (orchestrator/circuit_breaker.py)

Wall-clock time (`time.time()`) is passed explicitly as a rational
`now`. -/

/-- The three breaker states; the source's `OPEN` is spelled `opened`
(`open` is a Lean keyword). -/
inductive CircuitState where
  | closed
  | opened
  | half_open
deriving DecidableEq, Repr

/-- Embeds the `CircuitBreaker` object state. -/
structure CircuitBreaker where
  name : String
  maxFailures : Nat
  resetTimeout : ℚ
  state : CircuitState
  failureCount : Nat
  lastFailureTime : ℚ
  successCount : Nat
deriving DecidableEq, Repr

/-- A freshly constructed breaker (`__init__`). -/
def CircuitBreaker.init (name : String) (maxFailures : Nat) (resetTimeout : ℚ) :
    CircuitBreaker :=
  { name := name
    maxFailures := maxFailures
    resetTimeout := resetTimeout
    state := CircuitState.closed
    failureCount := 0
    lastFailureTime := 0
    successCount := 0 }

/-- Embeds `CircuitBreaker.is_open`: pure observer except for the
inline `OPEN → HALF_OPEN` transition once strictly more than
`reset_timeout` has passed since the last failure. -/
def CircuitBreaker.is_open (b : CircuitBreaker) (now : ℚ) : CircuitBreaker × Bool :=
  if b.state = CircuitState.closed then (b, false)
  else if b.state = CircuitState.opened then
    if b.resetTimeout < now - b.lastFailureTime then
      ({ b with state := CircuitState.half_open }, false)
    else (b, true)
  else (b, false)

/-- Embeds `CircuitBreaker.record_failure`. -/
def CircuitBreaker.record_failure (b : CircuitBreaker) (now : ℚ) : CircuitBreaker :=
  let b' := { b with failureCount := b.failureCount + 1, lastFailureTime := now }
  if b'.state = CircuitState.half_open then { b' with state := CircuitState.opened }
  else if b'.maxFailures ≤ b'.failureCount then { b' with state := CircuitState.opened }
  else b'

/-- Embeds `CircuitBreaker.record_success`. -/
def CircuitBreaker.record_success (b : CircuitBreaker) : CircuitBreaker :=
  { b with
    state := CircuitState.closed
    failureCount := 0
    successCount := b.successCount + 1 }

/-- A run of consecutive `record_failure` calls at the given times. -/
def applyFailures (b : CircuitBreaker) (ts : List ℚ) : CircuitBreaker :=
  ts.foldl CircuitBreaker.record_failure b

/-- Invariant along failure-only runs: the state is `opened` exactly
when the failure count has reached `max_failures`. -/
def CBInv (b : CircuitBreaker) : Prop :=
  b.state = if b.maxFailures ≤ b.failureCount then CircuitState.opened else CircuitState.closed

theorem record_failure_inv (b : CircuitBreaker) (t : ℚ) (hb : CBInv b) :
    CBInv (b.record_failure t) ∧
    (b.record_failure t).failureCount = b.failureCount + 1 ∧
    (b.record_failure t).maxFailures = b.maxFailures ∧
    (b.record_failure t).resetTimeout = b.resetTimeout ∧
    (b.record_failure t).lastFailureTime = t := by
  unfold CircuitBreaker.record_failure
  have hnot : b.state ≠ CircuitState.half_open := by
    rw [hb]
    by_cases h : b.maxFailures ≤ b.failureCount <;> simp [h]
  simp only []
  rw [if_neg hnot]
  by_cases h : b.maxFailures ≤ b.failureCount + 1
  · rw [if_pos h]
    exact ⟨by simp [CBInv, h], rfl, rfl, rfl, rfl⟩
  · rw [if_neg h]
    have h0 : ¬ b.maxFailures ≤ b.failureCount := fun hc => h (Nat.le_succ_of_le hc)
    refine ⟨?_, rfl, rfl, rfl, rfl⟩
    simp only [CBInv] at hb ⊢
    rw [if_neg h0] at hb
    simpa [h] using hb

theorem applyFailures_spec (ts : List ℚ) (b : CircuitBreaker) (hb : CBInv b) :
    CBInv (applyFailures b ts) ∧
    (applyFailures b ts).failureCount = b.failureCount + ts.length ∧
    (applyFailures b ts).maxFailures = b.maxFailures ∧
    (applyFailures b ts).resetTimeout = b.resetTimeout := by
  induction ts generalizing b with
  | nil => exact ⟨hb, rfl, rfl, rfl⟩
  | cons t ts ih =>
    obtain ⟨h1, h2, h3, h4, _⟩ := record_failure_inv b t hb
    obtain ⟨g1, g2, g3, g4⟩ := ih (b.record_failure t) h1
    have hstep : applyFailures b (t :: ts) = applyFailures (b.record_failure t) ts := rfl
    rw [hstep]
    refine ⟨g1, ?_, ?_, ?_⟩
    · rw [g2, h2]
      simp [Nat.add_assoc, Nat.add_comm 1 ts.length]
    · rw [g3, h3]
    · rw [g4, h4]

/-- C7: after `max_failures` consecutive `record_failure` calls with no
intervening success, the breaker is open; every `is_open` query made at
or before `reset_timeout` after the last failure returns true and keeps
the breaker open; the first query strictly after `reset_timeout` moves
the breaker to half-open and returns false (allowing one probe), and
any query on a half-open breaker before resolution also returns
false. -/
theorem c7_circuit_breaker (name : String) (maxF : Nat) (timeout : ℚ) (ts : List ℚ)
    (hmax : 1 ≤ maxF) (hlen : maxF ≤ ts.length) :
    (applyFailures (CircuitBreaker.init name maxF timeout) ts).state = CircuitState.opened ∧
    (∀ now : ℚ,
      now - (applyFailures (CircuitBreaker.init name maxF timeout) ts).lastFailureTime ≤ timeout →
      ((applyFailures (CircuitBreaker.init name maxF timeout) ts).is_open now).2 = true ∧
      ((applyFailures (CircuitBreaker.init name maxF timeout) ts).is_open now).1.state
        = CircuitState.opened) ∧
    (∀ now : ℚ,
      timeout < now - (applyFailures (CircuitBreaker.init name maxF timeout) ts).lastFailureTime →
      ((applyFailures (CircuitBreaker.init name maxF timeout) ts).is_open now).2 = false ∧
      ((applyFailures (CircuitBreaker.init name maxF timeout) ts).is_open now).1.state
        = CircuitState.half_open) ∧
    (∀ (b' : CircuitBreaker) (now : ℚ), b'.state = CircuitState.half_open →
      (b'.is_open now).2 = false) := by
  have hinit : CBInv (CircuitBreaker.init name maxF timeout) := by
    simp only [CBInv, CircuitBreaker.init]
    rw [if_neg (by omega)]
  obtain ⟨h1, h2, h3, h4⟩ := applyFailures_spec ts (CircuitBreaker.init name maxF timeout) hinit
  set b := applyFailures (CircuitBreaker.init name maxF timeout) ts with hbdef
  have hcount : maxF ≤ b.failureCount := by
    rw [h2]
    simpa [CircuitBreaker.init] using hlen
  have hmaxeq : b.maxFailures = maxF := by rw [h3]; rfl
  have hstate : b.state = CircuitState.opened := by
    rw [CBInv] at h1
    rw [h1, hmaxeq, if_pos hcount]
  have htimeout : b.resetTimeout = timeout := by
    rw [h4]; rfl
  refine ⟨hstate, ?_, ?_, ?_⟩
  · intro now hnow
    unfold CircuitBreaker.is_open
    rw [if_neg (by rw [hstate]; exact fun h => nomatch h), if_pos hstate,
      if_neg (by rw [htimeout]; exact not_lt.mpr hnow)]
    exact ⟨rfl, hstate⟩
  · intro now hnow
    unfold CircuitBreaker.is_open
    rw [if_neg (by rw [hstate]; exact fun h => nomatch h), if_pos hstate,
      if_pos (by rw [htimeout]; exact hnow)]
    exact ⟨rfl, rfl⟩
  · intro b' now hb'
    unfold CircuitBreaker.is_open
    rw [if_neg (by rw [hb']; exact fun h => nomatch h),
      if_neg (by rw [hb']; exact fun h => nomatch h)]

/-- C7 witness: breaker with `max_failures = 3`, `reset_timeout = 30`,
three failures at times 1, 2, 3; queried at time 10 (within the
timeout) it reports open, queried at time 40 it half-opens and lets the
probe through. -/
theorem c7_witness :
    ((applyFailures (CircuitBreaker.init "story" 3 30) [1, 2, 3]).is_open 10).2 = true ∧
    ((applyFailures (CircuitBreaker.init "story" 3 30) [1, 2, 3]).is_open 40).2 = false ∧
    ((applyFailures (CircuitBreaker.init "story" 3 30) [1, 2, 3]).is_open 40).1.state
      = CircuitState.half_open := by
  obtain ⟨_, h2, h3, _⟩ :=
    c7_circuit_breaker "story" 3 30 [1, 2, 3] (by decide) (by decide)
  have hlast : (applyFailures (CircuitBreaker.init "story" 3 30) [1, 2, 3]).lastFailureTime = 3 := by
    simp [applyFailures, CircuitBreaker.record_failure, CircuitBreaker.init]
  refine ⟨(h2 10 (by rw [hlast]; norm_num)).1,
    (h3 40 (by rw [hlast]; norm_num)).1,
    (h3 40 (by rw [hlast]; norm_num)).2⟩

/-! ## JSON values and schema validators (core/schemas.py)

JSON payloads crossing A2A boundaries are embedded as `Json`; numbers
are rationals.  Each registered draft-07 schema is embedded as a
validator returning the list of error messages, mirroring
`A2ASchemaValidator.validate` whose `is_valid` is emptiness of that
list.  Error message texts are abbreviated descriptors (no theorem
depends on their wording). -/

/-- A JSON value. -/
inductive Json where
  | jstr (s : String)
  | jnum (q : ℚ)
  | jbool (b : Bool)
  | jnull
  | jarr (items : List Json)
  | jobj (fields : List (String × Json))

/-- Errors for required properties missing from an object. -/
def requiredErrs (fs : List (String × Json)) (req : List String) : List String :=
  req.filterMap fun k =>
    if (fs.lookup k).isSome then none else some (k ++ " is a required property")

/-- Apply a subschema check to a property when present. -/
def propErrs (fs : List (String × Json)) (k : String) (check : Json → List String) :
    List String :=
  match fs.lookup k with
  | some v => check v
  | none => []

/-- Errors for `additionalProperties: false`. -/
def extraPropErrs (fs : List (String × Json)) (allowed : List String) : List String :=
  fs.filterMap fun kv =>
    if allowed.contains kv.1 then none
    else some ("additional property " ++ kv.1 ++ " is not allowed")

/-- Subschema `{"type": "string"}`. -/
def checkString : Json → List String
  | Json.jstr _ => []
  | _ => ["expected a string"]

/-- Subschema `{"type": "string", "minLength": n}`. -/
def checkStringMinLen (n : Nat) : Json → List String
  | Json.jstr s => if n ≤ s.length then [] else ["string is too short"]
  | _ => ["expected a string"]

/-- Subschema `{"type": "string", "enum": vals}`. -/
def checkEnum (vals : List String) : Json → List String
  | Json.jstr s => if vals.contains s then [] else ["value is not one of the allowed values"]
  | _ => ["expected a string"]

/-- Subschema `{"type": "boolean"}`. -/
def checkBool : Json → List String
  | Json.jbool _ => []
  | _ => ["expected a boolean"]

/-- Subschema `{"type": "number", "minimum": lo, "maximum": hi}`. -/
def checkNumRange (lo hi : ℚ) : Json → List String
  | Json.jnum q =>
    (if lo ≤ q then [] else ["value below minimum"]) ++
    (if q ≤ hi then [] else ["value above maximum"])
  | _ => ["expected a number"]

/-- Subschema for arrays with a uniform item schema. -/
def checkArrayOf (item : Json → List String) : Json → List String
  | Json.jarr xs => xs.foldr (fun x acc => item x ++ acc) []
  | _ => ["expected an array"]

/-- Arrays with `minItems` / `maxItems` bounds. -/
def checkArrayLen (item : Json → List String) (lo hi : Nat) : Json → List String
  | Json.jarr xs =>
    (if lo ≤ xs.length then [] else ["too few items"]) ++
    (if xs.length ≤ hi then [] else ["too many items"]) ++
    xs.foldr (fun x acc => item x ++ acc) []
  | _ => ["expected an array"]

/-- Item schema of `StoryChunk.cultural_claims`. -/
def checkClaimItem : Json → List String
  | Json.jobj fs =>
    requiredErrs fs ["claim", "category"] ++
    propErrs fs "claim" checkString ++
    propErrs fs "category"
      (checkEnum ["proverb", "custom", "character", "location", "language", "historical"])
  | _ => ["expected an object"]

/-- `STORY_REQUEST_SCHEMA`. -/
def validateStoryRequest : Json → List String
  | Json.jobj fs =>
    requiredErrs fs ["culture", "theme"] ++
    propErrs fs "culture" checkString ++
    propErrs fs "theme"
      (checkEnum ["trickster", "creation", "wisdom", "courage", "love", "origin", "moral"]) ++
    propErrs fs "complexity" (checkEnum ["child", "teen", "adult"]) ++
    propErrs fs "continuation" checkBool ++
    propErrs fs "session_context" checkString ++
    extraPropErrs fs ["culture", "theme", "complexity", "continuation", "session_context"]
  | _ => ["expected an object"]

/-- `STORY_CHUNK_SCHEMA`. -/
def validateStoryChunk : Json → List String
  | Json.jobj fs =>
    requiredErrs fs ["text", "culture"] ++
    propErrs fs "text" (checkStringMinLen 1) ++
    propErrs fs "culture" checkString ++
    propErrs fs "cultural_claims" (checkArrayOf checkClaimItem) ++
    propErrs fs "scene_description" checkString ++
    propErrs fs "is_final" checkBool ++
    extraPropErrs fs ["text", "culture", "cultural_claims", "scene_description", "is_final"]
  | _ => ["expected an object"]

/-- `VALIDATED_CHUNK_SCHEMA`. -/
def validateValidatedChunk : Json → List String
  | Json.jobj fs =>
    requiredErrs fs ["text", "confidence"] ++
    propErrs fs "text" checkString ++
    propErrs fs "confidence" (checkNumRange 0 1) ++
    propErrs fs "corrections" (checkArrayOf checkString) ++
    propErrs fs "rejected_claims" (checkArrayOf checkString) ++
    propErrs fs "is_final" checkBool ++
    extraPropErrs fs ["text", "confidence", "corrections", "rejected_claims", "is_final"]
  | _ => ["expected an object"]

/-- `RIDDLE_REQUEST_SCHEMA`. -/
def validateRiddleRequest : Json → List String
  | Json.jobj fs =>
    requiredErrs fs ["culture"] ++
    propErrs fs "culture" checkString ++
    propErrs fs "difficulty" (checkEnum ["easy", "medium", "hard"]) ++
    propErrs fs "session_context" checkString ++
    extraPropErrs fs ["culture", "difficulty", "session_context"]
  | _ => ["expected an object"]

/-- `RIDDLE_PAYLOAD_SCHEMA`. -/
def validateRiddlePayload : Json → List String
  | Json.jobj fs =>
    requiredErrs fs ["opening", "riddle_text", "answer", "culture"] ++
    propErrs fs "opening" checkString ++
    propErrs fs "riddle_text" checkString ++
    propErrs fs "answer" checkString ++
    propErrs fs "hints" (checkArrayLen checkString 3 3) ++
    propErrs fs "explanation" checkString ++
    propErrs fs "culture" checkString ++
    propErrs fs "is_traditional" checkBool ++
    extraPropErrs fs
      ["opening", "riddle_text", "answer", "hints", "explanation", "culture", "is_traditional"]
  | _ => ["expected an object"]

/-- `IMAGE_REQUEST_SCHEMA`. -/
def validateImageRequest : Json → List String
  | Json.jobj fs =>
    requiredErrs fs ["scene_description", "culture"] ++
    propErrs fs "scene_description" (checkStringMinLen 10) ++
    propErrs fs "culture" checkString ++
    propErrs fs "aspect_ratio" (checkEnum ["16:9", "1:1", "9:16"]) ++
    extraPropErrs fs ["scene_description", "culture", "aspect_ratio"]
  | _ => ["expected an object"]

/-- `IMAGE_RESULT_SCHEMA`. -/
def validateImageResult : Json → List String
  | Json.jobj fs =>
    requiredErrs fs ["status"] ++
    propErrs fs "status" (checkEnum ["success", "failed", "skipped"]) ++
    propErrs fs "url" checkString ++
    propErrs fs "error" checkString ++
    extraPropErrs fs ["status", "url", "error"]
  | _ => ["expected an object"]

/-- The schema registry lookup of `A2ASchemaValidator.validate`,
returning the error list; an unregistered name yields the
"Unknown schema" error exactly as in the source. -/
def validateSchema (name : String) (data : Json) : List String :=
  if name = "StoryRequest" then validateStoryRequest data
  else if name = "StoryChunk" then validateStoryChunk data
  else if name = "ValidatedChunk" then validateValidatedChunk data
  else if name = "RiddleRequest" then validateRiddleRequest data
  else if name = "RiddlePayload" then validateRiddlePayload data
  else if name = "ImageRequest" then validateImageRequest data
  else if name = "ImageResult" then validateImageResult data
  else ["Unknown schema: " ++ name]

/-! ## A2A router (orchestrator/a2a_router.py) -/

/-- The payload of a raised `SchemaViolationError`. -/
structure SchemaViolation where
  schemaName : String
  errors : List String

/-- Embeds `_generate_safe_fallback`: hand-written minimal valid
instances for the four agent output schemas; any other name yields the
generic error dict. -/
def safeFallback (schemaName : String) : Json :=
  if schemaName = "StoryChunk" then
    Json.jobj
      [("text", Json.jstr
          "In some traditions, the story continues in ways that words alone cannot capture..."),
       ("culture", Json.jstr "african"),
       ("cultural_claims", Json.jarr []),
       ("is_final", Json.jbool true)]
  else if schemaName = "ValidatedChunk" then
    Json.jobj
      [("text", Json.jstr "Let me continue with what I know to be true..."),
       ("confidence", Json.jnum (1 / 2)),
       ("corrections", Json.jarr [Json.jstr "Fallback response due to validation failure"]),
       ("rejected_claims", Json.jarr []),
       ("is_final", Json.jbool true)]
  else if schemaName = "RiddlePayload" then
    Json.jobj
      [("opening", Json.jstr "A riddle for you..."),
       ("riddle_text", Json.jstr
          "What has roots that nobody sees, is taller than trees, yet never grows?"),
       ("answer", Json.jstr "A mountain"),
       ("hints", Json.jarr
          [Json.jstr "It stands very still.",
           Json.jstr "It touches the sky.",
           Json.jstr "You can climb it."]),
       ("explanation", Json.jstr "A classic riddle found in many oral traditions."),
       ("culture", Json.jstr "african"),
       ("is_traditional", Json.jbool false)]
  else if schemaName = "ImageResult" then
    Json.jobj
      [("status", Json.jstr "skipped"),
       ("error", Json.jstr "Image generation unavailable")]
  else Json.jobj [("error", Json.jstr ("No fallback for schema " ++ schemaName))]

/-- Embeds `_attempt_chunk_fix`: fill missing required fields of a
malformed streaming chunk (`culture` for StoryChunk, `confidence` for
ValidatedChunk); chunks without `text`, non-dict chunks or other
schemas are unfixable. -/
def attempt_chunk_fix (chunk : Json) (schemaName : String) : Option Json :=
  match chunk with
  | Json.jobj fs =>
    if schemaName = "StoryChunk" then
      if (fs.lookup "text").isSome then
        some (Json.jobj
          (if (fs.lookup "culture").isSome then fs
           else fs ++ [("culture", Json.jstr "african")]))
      else none
    else if schemaName = "ValidatedChunk" then
      if (fs.lookup "text").isSome then
        some (Json.jobj
          (if (fs.lookup "confidence").isSome then fs
           else fs ++ [("confidence", Json.jnum (1 / 2))]))
      else none
    else none
  | _ => none

/-- The per-chunk body of `dispatch_streaming_with_schema`: valid chunks
pass through, invalid ones are repaired in place when possible and
dropped otherwise. -/
def streamBody (outputSchema : String) : List Json → List Json
  | [] => []
  | c :: cs =>
    if (validateSchema outputSchema c).isEmpty then c :: streamBody outputSchema cs
    else
      match attempt_chunk_fix c outputSchema with
      | some patched => patched :: streamBody outputSchema cs
      | none => streamBody outputSchema cs

/-- Embeds `dispatch_streaming_with_schema` over a finite agent stream:
validate the input (raising `SchemaViolationError` on failure), then
yield the per-chunk-validated stream. -/
def dispatch_streaming_with_schema (inputSchema outputSchema : String)
    (inputData : Json) (chunks : List Json) : Except SchemaViolation (List Json) :=
  if (validateSchema inputSchema inputData).isEmpty then
    Except.ok (streamBody outputSchema chunks)
  else Except.error ⟨inputSchema, validateSchema inputSchema inputData⟩

/-! ## Claim C1: streamed chunks validate against the output schema -/

/-- A streamed StoryChunk with an empty `text`: schema-invalid
(`minLength: 1`), yet `_attempt_chunk_fix` returns it unchanged because
both required keys are present. -/
def c1BadChunk : Json :=
  Json.jobj [("text", Json.jstr ""), ("culture", Json.jstr "yoruba")]

/-- A schema-valid StoryRequest used as stream input. -/
def c1GoodInput : Json :=
  Json.jobj [("culture", Json.jstr "yoruba"), ("theme", Json.jstr "wisdom")]

/-- C1 counterexample: the streaming dispatch yields the empty-text
chunk unchanged — the in-place fix only fills missing required keys —
so a yielded chunk fails the declared output schema. -/
theorem c1_counterexample :
    dispatch_streaming_with_schema "StoryRequest" "StoryChunk" c1GoodInput [c1BadChunk]
      = Except.ok [c1BadChunk] ∧
    (validateSchema "StoryChunk" c1BadChunk).isEmpty = false := by
  exact ⟨rfl, rfl⟩

/-- C1 (amended): every chunk yielded by the streaming dispatch either
validates against the declared output schema or is the in-place fix of
a stream chunk that failed validation — the fix guarantees the required
keys are present but not full schema validity. -/
theorem c1_stream_chunks_valid_or_fixed (inputSchema outputSchema : String)
    (inputData : Json) (chunks out : List Json) (c : Json)
    (hok : dispatch_streaming_with_schema inputSchema outputSchema inputData chunks
      = Except.ok out)
    (hc : c ∈ out) :
    (validateSchema outputSchema c).isEmpty = true ∨
      ∃ orig, orig ∈ chunks ∧ (validateSchema outputSchema orig).isEmpty = false ∧
        attempt_chunk_fix orig outputSchema = some c := by
  have hout : out = streamBody outputSchema chunks := by
    unfold dispatch_streaming_with_schema at hok
    by_cases hin : (validateSchema inputSchema inputData).isEmpty
    · rw [if_pos hin] at hok
      exact (Except.ok.inj hok).symm
    · rw [if_neg hin] at hok
      cases hok
  subst hout
  clear hok
  induction chunks with
  | nil => simp [streamBody] at hc
  | cons x xs ih =>
    rw [streamBody] at hc
    by_cases hv : (validateSchema outputSchema x).isEmpty = true
    · rw [if_pos hv] at hc
      rcases List.mem_cons.mp hc with h | h
      · subst h; exact Or.inl hv
      · rcases ih h with h' | ⟨orig, ho, h1, h2⟩
        · exact Or.inl h'
        · exact Or.inr ⟨orig, List.mem_cons_of_mem _ ho, h1, h2⟩
    · rw [if_neg hv] at hc
      cases hfix : attempt_chunk_fix x outputSchema with
      | none =>
        rw [hfix] at hc
        rcases ih hc with h' | ⟨orig, ho, h1, h2⟩
        · exact Or.inl h'
        · exact Or.inr ⟨orig, List.mem_cons_of_mem _ ho, h1, h2⟩
      | some patched =>
        rw [hfix] at hc
        rcases List.mem_cons.mp hc with h | h
        · subst h
          exact Or.inr ⟨x, List.mem_cons_self _ _, by simpa using hv, hfix⟩
        · rcases ih h with h' | ⟨orig, ho, h1, h2⟩
          · exact Or.inl h'
          · exact Or.inr ⟨orig, List.mem_cons_of_mem _ ho, h1, h2⟩

/-- A StoryChunk missing only its `culture` field, repairable in place. -/
def c1FixableChunk : Json := Json.jobj [("text", Json.jstr "Long ago...")]

/-- The chunk after the in-place fix filled in the default culture. -/
def c1FixedChunk : Json :=
  Json.jobj [("text", Json.jstr "Long ago..."), ("culture", Json.jstr "african")]

/-- C1 witness: the amended theorem applied to a concrete stream whose
only chunk is repaired in place. -/
theorem c1_witness :
    (validateSchema "StoryChunk" c1FixedChunk).isEmpty = true ∨
      ∃ orig, orig ∈ [c1FixableChunk] ∧
        (validateSchema "StoryChunk" orig).isEmpty = false ∧
        attempt_chunk_fix orig "StoryChunk" = some c1FixedChunk :=
  c1_stream_chunks_valid_or_fixed "StoryRequest" "StoryChunk" c1GoodInput
    [c1FixableChunk] [c1FixedChunk] c1FixedChunk rfl (by simp)

/-! ## Claim C9: unary dispatch (dispatch_with_schema_enforcement)

The agent callable may behave differently on each invocation (it wraps
a stochastic model), so it is embedded as a function of the attempt
index and the input; each call either returns a payload, raises
`SchemaViolationError`, or raises some other exception. -/

/-- Outcome of one `agent_fn(input_data)` call. -/
inductive AgentResult where
  | ok (j : Json)
  | raiseSchema
  | raiseOther

/-- Result of the retry loop body. -/
inductive CoreResult where
  | finished (j : Json)
  | raisedSchema

/-- Result of the whole dispatch. -/
inductive DispatchResult where
  | ok (j : Json)
  | inputViolation (schemaName : String) (errors : List String)
  | agentSchemaViolation

/-- The `_correction` directive string carrying the enumerated errors
(Python renders the error list inside an f-string; the exact quoting of
each error is immaterial to every theorem below). -/
def correctionText (errs : List String) : String :=
  "Your previous output had schema errors: [" ++ String.intercalate ", " errs ++
    "]. Fix them and respond again with valid JSON."

/-- Python dict assignment `d[k] = v`: replace an existing key in
place, else append. -/
def setField (fs : List (String × Json)) (k : String) (v : Json) :
    List (String × Json) :=
  if (fs.lookup k).isSome then
    fs.map (fun kv => if kv.1 = k then (k, v) else kv)
  else fs ++ [(k, v)]

/-- Embeds `input_data = dict(input_data); input_data["_correction"] = ...`.
Schema-valid inputs are always objects; the non-object arm is a
harmless totalisation. -/
def addCorrection (input : Json) (errs : List String) : Json :=
  match input with
  | Json.jobj fs => Json.jobj (setField fs "_correction" (Json.jstr (correctionText errs)))
  | j => j

/-- The `for attempt in range(max_retries + 1)` loop of
`dispatch_with_schema_enforcement`, with `remaining` the number of
attempts left (`remaining = max_retries + 1 - attempt`); returns the
loop outcome together with the inputs passed to the successive agent
calls.  `remaining = 0` is the fall-through after the loop. -/
def dispatchGo (agentFn : Nat → Json → AgentResult) (outputSchema : String) :
    Nat → Nat → Json → CoreResult × List Json
  | _, 0, _ => (CoreResult.finished (safeFallback outputSchema), [])
  | attempt, r + 1, input =>
    match agentFn attempt input with
    | AgentResult.raiseSchema => (CoreResult.raisedSchema, [input])
    | AgentResult.raiseOther =>
      if r = 0 then (CoreResult.finished (safeFallback outputSchema), [input])
      else
        let next := dispatchGo agentFn outputSchema (attempt + 1) r input
        (next.1, input :: next.2)
    | AgentResult.ok result =>
      if (validateSchema outputSchema result).isEmpty then
        (CoreResult.finished result, [input])
      else if r = 0 then (CoreResult.finished (safeFallback outputSchema), [input])
      else
        let next := dispatchGo agentFn outputSchema (attempt + 1) r
          (addCorrection input (validateSchema outputSchema result))
        (next.1, input :: next.2)

/-- Embeds `dispatch_with_schema_enforcement`: validate the input
(raising on failure), then run the retry loop; an agent-raised
`SchemaViolationError` propagates. -/
def dispatch_with_schema_enforcement (agentFn : Nat → Json → AgentResult)
    (inputData : Json) (inputSchema outputSchema : String) (maxRetries : Nat) :
    DispatchResult × List Json :=
  if (validateSchema inputSchema inputData).isEmpty then
    match dispatchGo agentFn outputSchema 0 (maxRetries + 1) inputData with
    | (CoreResult.finished j, tr) => (DispatchResult.ok j, tr)
    | (CoreResult.raisedSchema, tr) => (DispatchResult.agentSchemaViolation, tr)
  else
    (DispatchResult.inputViolation inputSchema (validateSchema inputSchema inputData), [])

/-- The retry-with-correction discipline over the trace of inputs
passed to the agent, starting at attempt index `a`: whenever a call
returned a payload and the loop went on to another call, the payload
failed the output schema and the next input is the previous one
augmented with the `_correction` field carrying those errors. -/
def TraceStep (agentFn : Nat → Json → AgentResult) (outputSchema : String) :
    Nat → List Json → Prop
  | _, [] => True
  | _, [_] => True
  | a, i₁ :: i₂ :: rest =>
    (∀ r, agentFn a i₁ = AgentResult.ok r →
      validateSchema outputSchema r ≠ [] ∧
      i₂ = addCorrection i₁ (validateSchema outputSchema r)) ∧
    TraceStep agentFn outputSchema (a + 1) (i₂ :: rest)

/-- An attempt that cannot produce a schema-valid payload (it raises,
or returns a payload failing the output schema). -/
def attemptFails (agentFn : Nat → Json → AgentResult) (outputSchema : String)
    (k : Nat) (j : Json) : Prop :=
  ∀ r, agentFn k j = AgentResult.ok r → validateSchema outputSchema r ≠ []

theorem dispatchGo_finished (agentFn : Nat → Json → AgentResult) (outputSchema : String)
    (hagent : ∀ n j, agentFn n j ≠ AgentResult.raiseSchema) :
    ∀ rem attempt input, ∃ j,
      (dispatchGo agentFn outputSchema attempt rem input).1 = CoreResult.finished j := by
  intro rem
  induction rem with
  | zero => intro attempt input; exact ⟨_, rfl⟩
  | succ r ih =>
    intro attempt input
    rw [dispatchGo]
    cases hcall : agentFn attempt input with
    | raiseSchema => exact absurd hcall (hagent attempt input)
    | raiseOther =>
      dsimp only
      by_cases hr : r = 0
      · rw [if_pos hr]; exact ⟨_, rfl⟩
      · rw [if_neg hr]
        exact ih (attempt + 1) input
    | ok result =>
      dsimp only
      by_cases hv : (validateSchema outputSchema result).isEmpty
      · rw [if_pos hv]; exact ⟨_, rfl⟩
      · rw [if_neg hv]
        by_cases hr : r = 0
        · rw [if_pos hr]; exact ⟨_, rfl⟩
        · rw [if_neg hr]
          exact ih (attempt + 1) (addCorrection input (validateSchema outputSchema result))

theorem dispatchGo_head (agentFn : Nat → Json → AgentResult) (outputSchema : String)
    (r : Nat) (attempt : Nat) (input : Json) :
    (dispatchGo agentFn outputSchema attempt (r + 1) input).2.head? = some input := by
  rw [dispatchGo]
  cases hcall : agentFn attempt input with
  | raiseSchema => rfl
  | raiseOther =>
    dsimp only
    by_cases hr : r = 0
    · rw [if_pos hr]; rfl
    · rw [if_neg hr]; rfl
  | ok result =>
    dsimp only
    by_cases hv : (validateSchema outputSchema result).isEmpty
    · rw [if_pos hv]; rfl
    · rw [if_neg hv]
      by_cases hr : r = 0
      · rw [if_pos hr]; rfl
      · rw [if_neg hr]; rfl

theorem dispatchGo_trace (agentFn : Nat → Json → AgentResult) (outputSchema : String) :
    ∀ rem attempt input,
      TraceStep agentFn outputSchema attempt
        (dispatchGo agentFn outputSchema attempt rem input).2 := by
  intro rem
  induction rem with
  | zero => intro attempt input; trivial
  | succ r ih =>
    intro attempt input
    rw [dispatchGo]
    cases hcall : agentFn attempt input with
    | raiseSchema => trivial
    | raiseOther =>
      dsimp only
      by_cases hr : r = 0
      · rw [if_pos hr]; trivial
      · rw [if_neg hr]
        obtain ⟨r', hr'⟩ := Nat.exists_eq_succ_of_ne_zero hr
        subst hr'
        have hh := dispatchGo_head agentFn outputSchema r' (attempt + 1) input
        cases htr : (dispatchGo agentFn outputSchema (attempt + 1) (r' + 1) input).2 with
        | nil => rw [htr] at hh; cases hh
        | cons y ys =>
          rw [htr] at hh
          have hy : y = input := by
            rw [List.head?_cons] at hh
            exact Option.some.inj hh
          subst hy
          refine ⟨?_, ?_⟩
          · intro rr hrr
            rw [hcall] at hrr
            cases hrr
          · have := ih (attempt + 1) y
            rw [htr] at this
            exact this
    | ok result =>
      dsimp only
      by_cases hv : (validateSchema outputSchema result).isEmpty
      · rw [if_pos hv]; trivial
      · rw [if_neg hv]
        by_cases hr : r = 0
        · rw [if_pos hr]; trivial
        · rw [if_neg hr]
          obtain ⟨r', hr'⟩ := Nat.exists_eq_succ_of_ne_zero hr
          subst hr'
          have hh := dispatchGo_head agentFn outputSchema r' (attempt + 1)
            (addCorrection input (validateSchema outputSchema result))
          cases htr : (dispatchGo agentFn outputSchema (attempt + 1) (r' + 1)
              (addCorrection input (validateSchema outputSchema result))).2 with
          | nil => rw [htr] at hh; cases hh
          | cons y ys =>
            rw [htr] at hh
            have hy : y = addCorrection input (validateSchema outputSchema result) := by
              rw [List.head?_cons] at hh
              exact Option.some.inj hh
            subst hy
            refine ⟨?_, ?_⟩
            · intro rr hrr
              rw [hcall] at hrr
              have hres : rr = result := (AgentResult.ok.inj hrr).symm
              subst hres
              exact ⟨by simpa using hv, rfl⟩
            · have := ih (attempt + 1) (addCorrection input (validateSchema outputSchema result))
              rw [htr] at this
              exact this

theorem dispatchGo_exhausted (agentFn : Nat → Json → AgentResult) (outputSchema : String)
    (hagent : ∀ n j, agentFn n j ≠ AgentResult.raiseSchema)
    (hbad : ∀ k j, attemptFails agentFn outputSchema k j) :
    ∀ rem attempt input,
      (dispatchGo agentFn outputSchema attempt rem input).1
        = CoreResult.finished (safeFallback outputSchema) := by
  intro rem
  induction rem with
  | zero => intro attempt input; rfl
  | succ r ih =>
    intro attempt input
    rw [dispatchGo]
    cases hcall : agentFn attempt input with
    | raiseSchema => exact absurd hcall (hagent attempt input)
    | raiseOther =>
      dsimp only
      by_cases hr : r = 0
      · rw [if_pos hr]
      · rw [if_neg hr]
        exact ih (attempt + 1) input
    | ok result =>
      dsimp only
      have hv : ¬ (validateSchema outputSchema result).isEmpty = true := by
        have := hbad attempt input result hcall
        simpa [List.isEmpty_iff] using this
      rw [if_neg hv]
      by_cases hr : r = 0
      · rw [if_pos hr]
      · rw [if_neg hr]
        exact ih (attempt + 1) (addCorrection input (validateSchema outputSchema result))

/-- C9: over any agent whose calls never raise `SchemaViolationError`
themselves, the unary dispatch (i) raises `SchemaViolationError`
exactly when the input fails its input schema, and otherwise always
returns a payload dict; (ii) whenever an attempt returned a payload
that failed the output schema and retries remained, the next call
receives the same input augmented with a `_correction` field carrying
the enumerated errors; (iii) if every attempt fails to produce a
schema-valid payload, the dispatch returns the schema-specific safe
fallback instead of raising. -/
theorem c9_unary_dispatch (agentFn : Nat → Json → AgentResult)
    (inputData : Json) (inputSchema outputSchema : String) (maxRetries : Nat)
    (hagent : ∀ n j, agentFn n j ≠ AgentResult.raiseSchema) :
    ((validateSchema inputSchema inputData).isEmpty = false →
      (dispatch_with_schema_enforcement agentFn inputData inputSchema outputSchema maxRetries).1
        = DispatchResult.inputViolation inputSchema (validateSchema inputSchema inputData)) ∧
    ((validateSchema inputSchema inputData).isEmpty = true →
      ∃ j, (dispatch_with_schema_enforcement agentFn inputData inputSchema outputSchema
        maxRetries).1 = DispatchResult.ok j) ∧
    TraceStep agentFn outputSchema 0
      (dispatch_with_schema_enforcement agentFn inputData inputSchema outputSchema maxRetries).2 ∧
    ((validateSchema inputSchema inputData).isEmpty = true →
      (∀ k j, attemptFails agentFn outputSchema k j) →
      (dispatch_with_schema_enforcement agentFn inputData inputSchema outputSchema maxRetries).1
        = DispatchResult.ok (safeFallback outputSchema)) := by
  refine ⟨?_, ?_, ?_, ?_⟩
  · intro hin
    unfold dispatch_with_schema_enforcement
    rw [if_neg (by simp [hin])]
  · intro hin
    unfold dispatch_with_schema_enforcement
    rw [if_pos hin]
    obtain ⟨j, hj⟩ := dispatchGo_finished agentFn outputSchema hagent
      (maxRetries + 1) 0 inputData
    refine ⟨j, ?_⟩
    cases hd : dispatchGo agentFn outputSchema 0 (maxRetries + 1) inputData with
    | mk core tr =>
      rw [hd] at hj
      simp only at hj
      subst hj
      rfl
  · unfold dispatch_with_schema_enforcement
    by_cases hin : (validateSchema inputSchema inputData).isEmpty
    · rw [if_pos hin]
      have htr := dispatchGo_trace agentFn outputSchema (maxRetries + 1) 0 inputData
      cases hd : dispatchGo agentFn outputSchema 0 (maxRetries + 1) inputData with
      | mk core tr =>
        rw [hd] at htr
        cases core
        · simpa using htr
        · simpa using htr
    · rw [if_neg hin]
      trivial
  · intro hin hbad
    unfold dispatch_with_schema_enforcement
    rw [if_pos hin]
    have hj := dispatchGo_exhausted agentFn outputSchema hagent hbad
      (maxRetries + 1) 0 inputData
    cases hd : dispatchGo agentFn outputSchema 0 (maxRetries + 1) inputData with
    | mk core tr =>
      rw [hd] at hj
      simp only at hj
      subst hj
      rfl

/-- Agent used by the C9 witness: it always crashes. -/
def c9CrashingAgent : Nat → Json → AgentResult := fun _ _ => AgentResult.raiseOther

/-- A schema-valid RiddleRequest. -/
def c9RiddleInput : Json := Json.jobj [("culture", Json.jstr "swahili")]

/-- C9 witness: dispatching a valid RiddleRequest to an agent that
crashes on every attempt returns the safe-fallback riddle instead of
raising. -/
theorem c9_witness :
    (dispatch_with_schema_enforcement c9CrashingAgent c9RiddleInput
      "RiddleRequest" "RiddlePayload" 2).1
      = DispatchResult.ok (safeFallback "RiddlePayload") :=
  (c9_unary_dispatch c9CrashingAgent c9RiddleInput "RiddleRequest" "RiddlePayload" 2
    (fun _ _ h => nomatch h)).2.2.2 rfl
    (fun _ _ _ hr => nomatch hr)

/-! ## Cultural grounding agent (agents/cultural_agent.py)

The in-memory knowledge base carries exactly the fields
`_check_knowledge_base` reads (figure names, proverb texts, opening
texts); translations and `verified` flags are elided because the code
never reads them on this path. -/

/-- `CULTURAL_KNOWLEDGE["trickster_figures"]` in insertion order:
culture key and figure name. -/
def trickster_figures : List (String × String) :=
  [("ashanti", "Anansi"), ("yoruba", "Ijapa"), ("zulu", "uNogwaja"),
   ("kikuyu", "Hare"), ("hausa", "Gizo")]

/-- `CULTURAL_KNOWLEDGE["proverbs"]` in insertion order. -/
def proverbs_kb : List (String × List String) :=
  [("swahili",
     ["Haraka haraka haina baraka.",
      "Mti hauendi ila kwa nyenzo.",
      "Asiyefunzwa na mamaye hufunzwa na ulimwengu."]),
   ("yoruba", ["Agba kii wa loja, ki ori omo titun wo."]),
   ("zulu", ["Umuntu ngumuntu ngabantu.", "Indlela ibuzwa kwabaphambili."]),
   ("ashanti", ["Obi nkyere abofra Nyame.", "Se wo were fi na wosankofa a, yenkyi."])]

/-- `CULTURAL_KNOWLEDGE["story_openings"]`: culture key and opening
text. -/
def story_openings_kb : List (String × String) :=
  [("swahili", "Hadithi, hadithi!"),
   ("yoruba", "Alo o!"),
   ("zulu", "Kwesukesukela..."),
   ("kikuyu", "Ruciini rumwe..."),
   ("ashanti",
     "We do not really mean, we do not really mean, that what we are about to say is true..."),
   ("igbo", "Nwanne m, gather close..."),
   ("maasai", "In the time before memory, when the earth was still young..."),
   ("wolof", "Lebbu am na..."),
   ("hausa", "Ga ta nan, ga ta nanku...")]

/-- Verdict of `_check_knowledge_base`. -/
inductive KbOutcome where
  | confirmed
  | contradicted
  | unknown
deriving DecidableEq, Repr

/-- The trickster-figure loop of `_check_knowledge_base` (category
`character`): a matching figure of the declared culture confirms; a
matching figure of another culture contradicts unless the claim also
names the declared culture, in which case the loop continues. -/
def checkTricksters (claimLower cultureLower : List Char) :
    List (String × String) → Option KbOutcome
  | [] => none
  | (kbCulture, figure) :: rest =>
    if infixB (pyLower figure.data) claimLower then
      if kbCulture.data = cultureLower then some KbOutcome.confirmed
      else if infixB cultureLower claimLower then
        checkTricksters claimLower cultureLower rest
      else some KbOutcome.contradicted
    else checkTricksters claimLower cultureLower rest

/-- The inner proverb loop: a 20-character prefix overlap in either
direction matches the proverb. -/
def checkProverbList (claimLower cultureLower : List Char) (kbCulture : String) :
    List String → Option KbOutcome
  | [] => none
  | p :: ps =>
    let pt := pyLower p.data
    if infixB (pt.take 20) claimLower || infixB (claimLower.take 20) pt then
      some (if kbCulture.data = cultureLower then KbOutcome.confirmed
            else KbOutcome.contradicted)
    else checkProverbList claimLower cultureLower kbCulture ps

/-- The outer proverb loop over cultures. -/
def checkProverbs (claimLower cultureLower : List Char) :
    List (String × List String) → Option KbOutcome
  | [] => none
  | (kbCulture, ps) :: rest =>
    match checkProverbList claimLower cultureLower kbCulture ps with
    | some o => some o
    | none => checkProverbs claimLower cultureLower rest

/-- The story-opening check (categories `language` and `custom`). -/
def checkOpenings (claimLower cultureLower : List Char) : Option KbOutcome :=
  match story_openings_kb.find? (fun e => e.1.data == cultureLower) with
  | some entry =>
    if infixB ((pyLower entry.2.data).take 15) claimLower then some KbOutcome.confirmed
    else none
  | none => none

/-- Embeds `_check_knowledge_base`. -/
def check_knowledge_base (claim culture category : String) : KbOutcome :=
  let claimLower := pyLower claim.data
  let cultureLower := pyLower culture.data
  let r1 : Option KbOutcome :=
    if category = "character" then checkTricksters claimLower cultureLower trickster_figures
    else none
  match r1 with
  | some o => o
  | none =>
    let r2 : Option KbOutcome :=
      if category = "proverb" then checkProverbs claimLower cultureLower proverbs_kb
      else none
    match r2 with
    | some o => o
    | none =>
      let r3 : Option KbOutcome :=
        if category = "language" ∨ category = "custom" then
          checkOpenings claimLower cultureLower
        else none
      r3.getD KbOutcome.unknown

/-- The marker list of `_has_overgeneralization`. -/
def overgeneralization_markers : List String :=
  ["all africans", "every african", "africans always", "in africa they always",
   "african culture is", "all of africa", "the african way"]

/-- Embeds `_has_overgeneralization`. -/
def has_overgeneralization (text : String) : Bool :=
  overgeneralization_markers.any (fun m => infixB m.data (pyLower text.data))

/-- The culture list of `_has_culture_mixing`. -/
def mixing_cultures : List String :=
  ["yoruba", "zulu", "kikuyu", "ashanti", "maasai", "igbo", "hausa", "wolof", "swahili"]

/-- Embeds `_has_culture_mixing`: more than one other named culture
mentioned in the text besides the declared one. -/
def has_culture_mixing (text targetCulture : String) : Bool :=
  decide (1 < (mixing_cultures.filter (fun c =>
    infixB c.data (pyLower text.data) && !(c.data == pyLower targetCulture.data))).length)

/-- One entry of `cultural_claims` as read by `validate_chunk`: a dict
(with the `.get` defaults for `claim` and `category` applied) or a
non-dict value rendered by `str()`. -/
inductive ClaimItem where
  | obj (claim : String) (category : String)
  | nonDict (rendered : String)
deriving DecidableEq, Repr

/-- `claim_obj.get("claim", "") if isinstance(claim_obj, dict) else str(claim_obj)`. -/
def claimTextOf : ClaimItem → String
  | ClaimItem.obj c _ => c
  | ClaimItem.nonDict s => s

/-- `claim_obj.get("category", "custom") if isinstance(claim_obj, dict) else "custom"`. -/
def claimCategoryOf : ClaimItem → String
  | ClaimItem.obj _ k => k
  | ClaimItem.nonDict _ => "custom"

/-- The fields of an incoming chunk dict as read by `validate_chunk`
via `chunk.get` (defaults `""`, `""`, `[]`, `False`). -/
structure StoryChunkInput where
  text : String := ""
  culture : String := ""
  cultural_claims : List ClaimItem := []
  is_final : Bool := false
deriving DecidableEq, Repr

/-- The parsed verdict of `_quick_ai_validate`.  A dict lacking
`confidence` is modelled by constructing the verdict with the `.get`
default 0.5; `corrected_text: null` is `none`. -/
structure AiVerdict where
  confidence : ℚ
  corrections : List String
  correctedText : Option String
deriving DecidableEq, Repr

/-- The ValidatedChunk dict returned by `validate_chunk`. -/
structure ValidatedChunkOut where
  text : String
  confidence : ℚ
  corrections : List String
  rejected_claims : List String
  is_final : Bool
deriving DecidableEq, Repr

/-- Python exceptions that can escape `validate_chunk`. -/
inductive PyError where
  | indexError
deriving DecidableEq, Repr

/-- `settings.CULTURAL_CONFIDENCE_THRESHOLD` (default 0.7). -/
def CULTURAL_CONFIDENCE_THRESHOLD : ℚ := 7 / 10

/-- `settings.CULTURAL_REJECT_THRESHOLD` (default 0.4). -/
def CULTURAL_REJECT_THRESHOLD : ℚ := 2 / 5

/-- The hedging phrases of `_add_hedging`, indexed by the
`random.choice` pick. -/
def hedging_phrase : Fin 3 → String
  | 0 => "In some traditions, "
  | 1 => "It is often said that "
  | 2 => "According to some accounts, "

/-- Embeds `_add_hedging`: prepend a hedging phrase and lowercase the
first remaining character; `text[0]` on an empty string raises
IndexError, modelled as `none`. -/
def add_hedging (choice : Fin 3) (text : String) : Option String :=
  match text.data with
  | [] => none
  | c :: rest => some (hedging_phrase choice ++ String.mk (c.toLower :: rest))

/-- Embeds `CulturalGroundingAgent.validate_chunk`.  The two
nondeterministic ingredients are explicit parameters: `ai` is the
outcome of `_quick_ai_validate` when level 3 fires (`Except.error` = the
call raised; the exception is swallowed; an unparseable model reply is
already turned into the default verdict by `_quick_ai_validate`
itself), and `choice` is the `random.choice` pick of `_add_hedging`. -/
def validate_chunk (ai : Except Unit AiVerdict) (choice : Fin 3)
    (chunk : StoryChunkInput) : Except PyError ValidatedChunkOut :=
  let text := chunk.text
  let culture := chunk.culture
  let l1 := chunk.cultural_claims.foldl
    (fun (acc : ℚ × List String) item =>
      match check_knowledge_base (claimTextOf item) culture (claimCategoryOf item) with
      | KbOutcome.confirmed => acc
      | KbOutcome.contradicted => (acc.1 * (3 / 10), acc.2 ++ [claimTextOf item])
      | KbOutcome.unknown => (acc.1 * (85 / 100), acc.2))
    (1, [])
  let rejected := l1.2
  let confidence2 := if has_overgeneralization text then l1.1 * (6 / 10) else l1.1
  let corrections2 :=
    if has_overgeneralization text then ["Overly broad cultural claim detected"] else []
  let confidence3 :=
    if has_culture_mixing text culture then confidence2 * (7 / 10) else confidence2
  let corrections3 := corrections2 ++
    (if has_culture_mixing text culture then ["Possible culture mixing detected"] else [])
  let lvl3 : ℚ × String × List String :=
    if confidence3 < CULTURAL_CONFIDENCE_THRESHOLD then
      match ai with
      | Except.error _ => (confidence3, text, corrections3)
      | Except.ok v =>
        if v.correctedText.getD "" ≠ "" then
          (min confidence3 v.confidence, v.correctedText.getD "", corrections3 ++ v.corrections)
        else (min confidence3 v.confidence, text, corrections3)
    else (confidence3, text, corrections3)
  if lvl3.1 < CULTURAL_REJECT_THRESHOLD then
    match add_hedging choice lvl3.2.1 with
    | none => Except.error PyError.indexError
    | some hedged =>
      Except.ok
        { text := hedged, confidence := lvl3.1, corrections := lvl3.2.2,
          rejected_claims := rejected, is_final := chunk.is_final }
  else
    Except.ok
      { text := lvl3.2.1, confidence := lvl3.1, corrections := lvl3.2.2,
        rejected_claims := rejected, is_final := chunk.is_final }

/-- The fields of an `AgentResponse` chunk read and written by the
legacy adapter; `metaCulture` and `metaClaims` model
`metadata.get("culture", "")` and `metadata.get("cultural_claims", [])`. -/
structure AgentResponseChunk where
  agent_name : String := "story"
  content : String := ""
  is_final : Bool := false
  metaCulture : String := ""
  metaClaims : List ClaimItem := []
  cultural_confidence : ℚ := 1
  metaCorrections : List String := []
  metaRejected : List String := []
deriving DecidableEq, Repr

/-- The `story_chunk` dict built by `validate_agent_response` from a
legacy chunk (no `is_final` key, so the `.get` default `False`
applies). -/
def story_chunk_of (chunk : AgentResponseChunk) : StoryChunkInput :=
  { text := chunk.content, culture := chunk.metaCulture,
    cultural_claims := chunk.metaClaims, is_final := false }

/-- Embeds `validate_agent_response`: build the StoryChunk dict, run
`validate_chunk`, copy the results back. -/
def validate_agent_response (ai : Except Unit AiVerdict) (choice : Fin 3)
    (chunk : AgentResponseChunk) : Except PyError AgentResponseChunk :=
  match validate_chunk ai choice (story_chunk_of chunk) with
  | Except.error e => Except.error e
  | Except.ok v =>
    Except.ok
      { chunk with
        content := v.text
        cultural_confidence := v.confidence
        metaCorrections := v.corrections
        metaRejected := v.rejected_claims }

/-! ## Claims C8 and C10: validate_chunk -/

/-- Knowledge-base verdict of one claim of a chunk. -/
def kbOutcomeOf (chunk : StoryChunkInput) (item : ClaimItem) : KbOutcome :=
  check_knowledge_base (claimTextOf item) chunk.culture (claimCategoryOf item)

/-- Number of contradicted claims of a chunk. -/
def contradictedCount (chunk : StoryChunkInput) : Nat :=
  chunk.cultural_claims.countP
    (fun item => decide (kbOutcomeOf chunk item = KbOutcome.contradicted))

/-- Number of unknown claims of a chunk. -/
def unknownCount (chunk : StoryChunkInput) : Nat :=
  chunk.cultural_claims.countP
    (fun item => decide (kbOutcomeOf chunk item = KbOutcome.unknown))

/-- The texts of the contradicted claims, in order. -/
def rejectedTexts (chunk : StoryChunkInput) : List String :=
  (chunk.cultural_claims.filter
    (fun item => decide (kbOutcomeOf chunk item = KbOutcome.contradicted))).map claimTextOf

/-- The correction notes recorded by the pattern heuristics. -/
def detCorrections (chunk : StoryChunkInput) : List String :=
  (if has_overgeneralization chunk.text then ["Overly broad cultural claim detected"] else []) ++
  (if has_culture_mixing chunk.text chunk.culture then ["Possible culture mixing detected"]
   else [])

/-- The confidence after levels 1 and 2: 1.0 times 0.3 per contradicted
claim, 0.85 per unknown claim, 0.6 for an overgeneralization marker and
0.7 for culture mixing. -/
def detConfidence (chunk : StoryChunkInput) : ℚ :=
  (3 / 10) ^ contradictedCount chunk * (85 / 100) ^ unknownCount chunk *
  (if has_overgeneralization chunk.text then 6 / 10 else 1) *
  (if has_culture_mixing chunk.text chunk.culture then 7 / 10 else 1)

theorem level1_fold (culture : String) (items : List ClaimItem) (c : ℚ) (rej : List String) :
    items.foldl
      (fun (acc : ℚ × List String) item =>
        match check_knowledge_base (claimTextOf item) culture (claimCategoryOf item) with
        | KbOutcome.confirmed => acc
        | KbOutcome.contradicted => (acc.1 * (3 / 10), acc.2 ++ [claimTextOf item])
        | KbOutcome.unknown => (acc.1 * (85 / 100), acc.2))
      (c, rej)
    = (c * (3 / 10) ^ (items.countP (fun item =>
          decide (check_knowledge_base (claimTextOf item) culture (claimCategoryOf item)
            = KbOutcome.contradicted)))
        * (85 / 100) ^ (items.countP (fun item =>
          decide (check_knowledge_base (claimTextOf item) culture (claimCategoryOf item)
            = KbOutcome.unknown))),
       rej ++ (items.filter (fun item =>
          decide (check_knowledge_base (claimTextOf item) culture (claimCategoryOf item)
            = KbOutcome.contradicted))).map claimTextOf) := by
  induction items generalizing c rej with
  | nil => simp
  | cons item rest ih =>
    rw [List.foldl_cons]
    cases hkb : check_knowledge_base (claimTextOf item) culture (claimCategoryOf item) with
    | confirmed =>
      dsimp only
      rw [ih c rej]
      rw [List.countP_cons, List.countP_cons, List.filter_cons]
      simp [hkb]
    | contradicted =>
      dsimp only
      rw [ih (c * (3 / 10)) (rej ++ [claimTextOf item]),
        List.countP_cons_of_pos _ _ (by simp [hkb]),
        List.countP_cons_of_neg _ _ (by simp [hkb]),
        List.filter_cons_of_pos (by simp [hkb]),
        Prod.ext_iff]
      constructor
      · dsimp only
        rw [pow_succ]
        ring
      · simp [List.append_assoc]
    | unknown =>
      dsimp only
      rw [ih (c * (85 / 100)) rej,
        List.countP_cons_of_neg _ _ (by simp [hkb]),
        List.countP_cons_of_pos _ _ (by simp [hkb]),
        List.filter_cons_of_neg (by simp [hkb]),
        Prod.ext_iff]
      constructor
      · dsimp only
        rw [pow_succ]
        ring
      · rfl

/-- C8: on the deterministic path — the confidence accumulated by the
knowledge-base and heuristic levels stays at or above the configured
confidence threshold, so the model-backed step never fires — the
returned chunk keeps the input text, its confidence is exactly 1.0
times 0.3 per contradicted claim, 0.85 per unknown claim, 0.6 for an
overgeneralization marker (with a correction note recorded) and 0.7 for
culture mixing, and the contradicted claim texts are exactly the
`rejected_claims`. -/
theorem c8_validate_chunk_deterministic (ai : Except Unit AiVerdict) (choice : Fin 3)
    (chunk : StoryChunkInput)
    (hconf : CULTURAL_CONFIDENCE_THRESHOLD ≤ detConfidence chunk) :
    validate_chunk ai choice chunk = Except.ok
      { text := chunk.text
        confidence := detConfidence chunk
        corrections := detCorrections chunk
        rejected_claims := rejectedTexts chunk
        is_final := chunk.is_final } := by
  have h25 : (CULTURAL_REJECT_THRESHOLD : ℚ) ≤ CULTURAL_CONFIDENCE_THRESHOLD := by
    unfold CULTURAL_REJECT_THRESHOLD CULTURAL_CONFIDENCE_THRESHOLD
    norm_num
  unfold detConfidence contradictedCount unknownCount kbOutcomeOf at hconf
  unfold validate_chunk
  dsimp only
  rw [level1_fold chunk.culture chunk.cultural_claims 1 []]
  dsimp only
  unfold detConfidence detCorrections rejectedTexts contradictedCount unknownCount kbOutcomeOf
  set n := chunk.cultural_claims.countP (fun item =>
    decide (check_knowledge_base (claimTextOf item) chunk.culture (claimCategoryOf item)
      = KbOutcome.contradicted)) with hn
  set u := chunk.cultural_claims.countP (fun item =>
    decide (check_knowledge_base (claimTextOf item) chunk.culture (claimCategoryOf item)
      = KbOutcome.unknown)) with hu
  by_cases hog : has_overgeneralization chunk.text
  · by_cases hmix : has_culture_mixing chunk.text chunk.culture
    · simp only [hog, hmix, if_true] at hconf ⊢
      have h1 : ¬ ((1 : ℚ) * (3 / 10) ^ n * (85 / 100) ^ u * (6 / 10) * (7 / 10)
          < CULTURAL_CONFIDENCE_THRESHOLD) := by
        rw [not_lt]; nlinarith [hconf]
      rw [if_neg h1]
      dsimp only
      have h2 : ¬ ((1 : ℚ) * (3 / 10) ^ n * (85 / 100) ^ u * (6 / 10) * (7 / 10)
          < CULTURAL_REJECT_THRESHOLD) := by
        rw [not_lt]; nlinarith [hconf, h25]
      rw [if_neg h2]
      rw [(by ring : (1 : ℚ) * (3 / 10) ^ n * (85 / 100) ^ u * (6 / 10) * (7 / 10)
          = (3 / 10) ^ n * (85 / 100) ^ u * (6 / 10) * (7 / 10))]
      try simp
    · simp only [hog, hmix, if_true, if_false, Bool.false_eq_true, List.append_nil] at hconf ⊢
      have h1 : ¬ ((1 : ℚ) * (3 / 10) ^ n * (85 / 100) ^ u * (6 / 10)
          < CULTURAL_CONFIDENCE_THRESHOLD) := by
        rw [not_lt]; nlinarith [hconf]
      rw [if_neg h1]
      dsimp only
      have h2 : ¬ ((1 : ℚ) * (3 / 10) ^ n * (85 / 100) ^ u * (6 / 10)
          < CULTURAL_REJECT_THRESHOLD) := by
        rw [not_lt]; nlinarith [hconf, h25]
      rw [if_neg h2]
      rw [(by ring : (1 : ℚ) * (3 / 10) ^ n * (85 / 100) ^ u * (6 / 10)
          = (3 / 10) ^ n * (85 / 100) ^ u * (6 / 10))]
      try simp
  · by_cases hmix : has_culture_mixing chunk.text chunk.culture
    · simp only [hog, hmix, if_true, if_false, Bool.false_eq_true, List.nil_append] at hconf ⊢
      have h1 : ¬ ((1 : ℚ) * (3 / 10) ^ n * (85 / 100) ^ u * (7 / 10)
          < CULTURAL_CONFIDENCE_THRESHOLD) := by
        rw [not_lt]; nlinarith [hconf]
      rw [if_neg h1]
      dsimp only
      have h2 : ¬ ((1 : ℚ) * (3 / 10) ^ n * (85 / 100) ^ u * (7 / 10)
          < CULTURAL_REJECT_THRESHOLD) := by
        rw [not_lt]; nlinarith [hconf, h25]
      rw [if_neg h2]
      rw [(by ring : (1 : ℚ) * (3 / 10) ^ n * (85 / 100) ^ u * (7 / 10)
          = (3 / 10) ^ n * (85 / 100) ^ u * (7 / 10))]
      try simp
    · simp only [hog, hmix, if_false, Bool.false_eq_true, List.nil_append, List.append_nil,
        mul_one] at hconf ⊢
      have h1 : ¬ ((1 : ℚ) * (3 / 10) ^ n * (85 / 100) ^ u
          < CULTURAL_CONFIDENCE_THRESHOLD) := by
        rw [not_lt]; nlinarith [hconf]
      rw [if_neg h1]
      dsimp only
      have h2 : ¬ ((1 : ℚ) * (3 / 10) ^ n * (85 / 100) ^ u
          < CULTURAL_REJECT_THRESHOLD) := by
        rw [not_lt]; nlinarith [hconf, h25]
      rw [if_neg h2]
      rw [(by ring : (1 : ℚ) * (3 / 10) ^ n * (85 / 100) ^ u
          = (3 / 10) ^ n * (85 / 100) ^ u)]
      try simp


/-- Truthiness of the corrected text offered by the model-backed step:
only a successfully parsed verdict with a non-empty `corrected_text`
replaces the chunk text. -/
def aiGivesText : Except Unit AiVerdict → Bool
  | Except.error _ => false
  | Except.ok v => !(v.correctedText.getD "" == "")

/-- C10: `validate_chunk` is not total at the public interface — for
every chunk whose text is the empty string and whose cultural claims
drive the accumulated confidence below the reject threshold, provided
the (swallowed or parsed) model step offers no truthy corrected text,
the hedging step evaluates `text[0]` and raises IndexError instead of
returning a ValidatedChunk dict; the legacy adapter
`validate_agent_response` feeds exactly such empty-text chunks into
this path. -/
theorem c10_empty_text_index_error (ai : Except Unit AiVerdict) (choice : Fin 3)
    (r : AgentResponseChunk)
    (hcontent : r.content = "")
    (hai : aiGivesText ai = false)
    (hlow : detConfidence (story_chunk_of r) < CULTURAL_REJECT_THRESHOLD) :
    validate_chunk ai choice (story_chunk_of r) = Except.error PyError.indexError ∧
    validate_agent_response ai choice r = Except.error PyError.indexError := by
  have h57 : (CULTURAL_REJECT_THRESHOLD : ℚ) ≤ CULTURAL_CONFIDENCE_THRESHOLD := by
    unfold CULTURAL_REJECT_THRESHOLD CULTURAL_CONFIDENCE_THRESHOLD
    norm_num
  have hogF : has_overgeneralization "" = false := by decide
  have hmixF : has_culture_mixing "" r.metaCulture = false := rfl
  have hcore : validate_chunk ai choice (story_chunk_of r)
      = Except.error PyError.indexError := by
    unfold detConfidence contradictedCount unknownCount kbOutcomeOf story_chunk_of at hlow
    dsimp only at hlow
    rw [hcontent] at hlow
    rw [hogF, hmixF] at hlow
    simp only [Bool.false_eq_true, if_false, mul_one] at hlow
    unfold validate_chunk story_chunk_of
    dsimp only
    rw [hcontent, level1_fold r.metaCulture r.metaClaims 1 [], hogF, hmixF]
    dsimp only
    simp only [Bool.false_eq_true, if_false]
    set n := r.metaClaims.countP (fun item =>
      decide (check_knowledge_base (claimTextOf item) r.metaCulture (claimCategoryOf item)
        = KbOutcome.contradicted)) with hn
    set u := r.metaClaims.countP (fun item =>
      decide (check_knowledge_base (claimTextOf item) r.metaCulture (claimCategoryOf item)
        = KbOutcome.unknown)) with hu
    have hc1 : (1 : ℚ) * (3 / 10) ^ n * (85 / 100) ^ u < CULTURAL_CONFIDENCE_THRESHOLD := by
      nlinarith [hlow, h57]
    rw [if_pos hc1]
    cases ai with
    | error e =>
      dsimp only
      rw [if_pos (by nlinarith [hlow] :
        (1 : ℚ) * (3 / 10) ^ n * (85 / 100) ^ u < CULTURAL_REJECT_THRESHOLD)]
      rfl
    | ok v =>
      have hgetd : v.correctedText.getD "" = "" := by
        simpa [aiGivesText] using hai
      have hne : ¬ (v.correctedText.getD "" ≠ "") := by simp [hgetd]
      dsimp only
      rw [if_neg hne]
      dsimp only
      rw [if_pos (lt_of_le_of_lt (min_le_left _ _)
        (by nlinarith [hlow] :
          (1 : ℚ) * (3 / 10) ^ n * (85 / 100) ^ u < CULTURAL_REJECT_THRESHOLD))]
      rfl
  refine ⟨hcore, ?_⟩
  unfold validate_agent_response
  rw [hcore]

/-- Chunk used by the C8 witness: one claim unknown to the knowledge
base, no heuristic hits, so the accumulated confidence 0.85 stays above
the threshold. -/
def c8Chunk : StoryChunkInput :=
  { text := "Wisdom guides the village."
    culture := "zulu"
    cultural_claims := [ClaimItem.obj "the elders speak at dawn" "custom"]
    is_final := false }

/-- C8 witness: the deterministic-path theorem applied at a concrete
chunk with a single unknown claim. -/
theorem c8_witness :
    validate_chunk (Except.error ()) 0 c8Chunk = Except.ok
      { text := c8Chunk.text
        confidence := detConfidence c8Chunk
        corrections := detCorrections c8Chunk
        rejected_claims := rejectedTexts c8Chunk
        is_final := c8Chunk.is_final } :=
  c8_validate_chunk_deterministic (Except.error ()) 0 c8Chunk (by
    have hn : contradictedCount c8Chunk = 0 := by decide
    have hu : unknownCount c8Chunk = 1 := by decide
    have hog : has_overgeneralization c8Chunk.text = false := by decide
    have hmix : has_culture_mixing c8Chunk.text c8Chunk.culture = false := by decide
    unfold detConfidence
    rw [hn, hu, hog, hmix]
    norm_num [CULTURAL_CONFIDENCE_THRESHOLD])

/-- Legacy chunk used by the C10 witness: empty content and two
trickster claims contradicting the declared culture, driving the
confidence to 0.09. -/
def c10Response : AgentResponseChunk :=
  { content := ""
    metaCulture := "yoruba"
    metaClaims := [ClaimItem.obj "anansi the trickster" "character",
                   ClaimItem.obj "the spider anansi" "character"] }

/-- C10 witness: the IndexError theorem applied at the concrete
empty-text chunk, for the swallowed model step. -/
theorem c10_witness :
    validate_chunk (Except.error ()) 0 (story_chunk_of c10Response)
      = Except.error PyError.indexError ∧
    validate_agent_response (Except.error ()) 0 c10Response
      = Except.error PyError.indexError :=
  c10_empty_text_index_error (Except.error ()) 0 c10Response rfl rfl (by
    have hn : contradictedCount (story_chunk_of c10Response) = 2 := by decide
    have hu : unknownCount (story_chunk_of c10Response) = 0 := by decide
    have hog : has_overgeneralization (story_chunk_of c10Response).text = false := by decide
    have hmix : has_culture_mixing (story_chunk_of c10Response).text
        (story_chunk_of c10Response).culture = false := by decide
    unfold detConfidence
    rw [hn, hu, hog, hmix]
    norm_num [CULTURAL_REJECT_THRESHOLD])
